import Mathlib

/-!
Verification of `pyrax/object_storage.py` (object-storage client: segmented
upload, ranged chunked fetch, folder sync planning, background folder upload,
temp URLs). Each definition below is a shallow embedding of a function of the
source file; the line numbers in the doc comments refer to
`src/pyrax/object_storage.py`. External collaborators that are not part of the
repository (the HTTP object store, `hashlib`/`hmac`, and the helpers of
`pyrax.utils` that the repository does not ship here) are modelled explicitly,
with their modelling stated in the doc comment.
-/

namespace PyraxOS

/-- Python-level failures that the embedded code can raise. `unboundLocal` and
`nameError` stand for `UnboundLocalError` / `NameError` on names the module
never binds. -/
inductive PyErr where
  | unboundLocal
  | nameError
  | invalidMethod
  | invalidUploadID
deriving DecidableEq, Repr

/-- Line 48: `MAX_FILE_SIZE = 5368709119` (5 GiB - 1), the maximum size of a
single stored object. -/
def MAX_FILE_SIZE : Nat := 5368709119

/-- Number of binary digits of `n` (`0` for `0`). The fuel argument only
makes the recursion structural; `bits` supplies enough. -/
def bitsAux : Nat → Nat → Nat
  | 0, _ => 0
  | fuel + 1, n => if n = 0 then 0 else bitsAux fuel (n / 2) + 1

/-- Number of binary digits of `n`. -/
def bits (n : Nat) : Nat := bitsAux (n + 1) n

/-- Round `num / den` to the nearest integer, ties to even — the IEEE-754
rounding performed both by Python's `float(int)` conversion and by a
correctly-rounded double operation once scaled to its target grid. -/
def rnd (num den : Nat) : Nat :=
  let q := num / den
  let r := num % den
  if den < 2 * r ∨ (2 * r = den ∧ q % 2 = 1) then q + 1 else q

/-- Python's `float(n)` for a nonnegative int `n`, as its exact value: `n`
itself when it fits in the 53-bit significand, otherwise `n` rounded to
nearest, ties to even, at the precision of its binade (`k` low bits are
rounded away, so the result is still an integer and is kept as a `Nat`).
Faithful below the double overflow threshold near `2 ^ 1024`, where Python's
`float()` raises `OverflowError` instead — every value in this file is far
below it. -/
def floatOfNat (n : Nat) : Nat :=
  if n < 2 ^ 53 then n
  else
    let k := bits n - 53
    rnd n (2 ^ k) * 2 ^ k

/-- Exact value of Python's `math.ceil(x / M)` where `x` is a nonnegative
integer-valued double, `M` a positive integer exactly representable as a
double, and `/` IEEE-754 double division (one correct rounding to nearest,
ties to even). For `0 < x < M` the true quotient is in `(0, 1)`, its rounding
stays in `(0, 1]` (the doubles are dense there, well above the subnormal
range, and cannot round past the representable `1.0`), so the ceiling is `1`.
Otherwise the quotient `q = x / M` lies in the binade `[2^e, 2^(e+1))` with
`e = bits (x / M) - 1`, the division rounds `q` to the grid of spacing
`2^(e-52)` (a carry to exactly `2^(e+1)` lands on that grid too), and the
ceiling of the rounded value is then exact: for `e ≤ 52` the rounded value is
`m / 2^(52-e)`, for `e > 52` it is the integer `m * 2^(e-52)`. -/
def ceilFloatDiv (x M : Nat) : Nat :=
  if x = 0 then 0
  else if x < M then 1
  else
    let e := bits (x / M) - 1
    if e ≤ 52 then
      let m := rnd (x * 2 ^ (52 - e)) M
      (m + 2 ^ (52 - e) - 1) / 2 ^ (52 - e)
    else
      let m := rnd x (M * 2 ^ (e - 52))
      m * 2 ^ (e - 52)

/-- Line 508: `num_segments = int(math.ceil(float(fsize) / MAX_FILE_SIZE))`,
embedded with the two IEEE-754 double roundings the expression performs:
`float(fsize)` rounds the size to the nearest double and the division by the
(exactly representable) constant `MAX_FILE_SIZE` rounds once more;
`math.ceil` and `int` are then exact. This is NOT always the exact ceiling of
`fsize / MAX_FILE_SIZE`: see the C1 theorem. -/
def num_segments_py (fsize : Nat) : Nat :=
  ceilFloatDiv (floatOfNat fsize) MAX_FILE_SIZE

/-- Decimal digit as a character, `0 ↦ '0'`, ..., `9 ↦ '9'` (code point 48+d). -/
def digChar (d : Nat) : Char := Char.ofNat (48 + d)

/-- Fuel-driven decimal representation (most significant digit first); embeds
Python's `str(n)` for a nonnegative integer. The fuel argument only serves to
make the recursion structural; `natStr` supplies enough fuel. -/
def natStrAux : Nat → Nat → List Char
  | 0, _ => []
  | fuel + 1, n =>
      if n < 10 then [digChar n]
      else natStrAux fuel (n / 10) ++ [digChar (n % 10)]

/-- Python `str(n)` as a list of characters. -/
def natStr (n : Nat) : List Char := natStrAux (n + 1) n

/-- Line 509: `digits = int(math.log10(num_segments)) + 1`, i.e. the number of
decimal digits of `n` (for `n ≥ 1`), embedded exactly. -/
def numDigits (n : Nat) : Nat := (natStr n).length

/-- Python `str.zfill`: pad on the left with `'0'` up to `width`; a string
already at least `width` long is returned unchanged. -/
def zfill (s : List Char) (width : Nat) : List Char :=
  List.replicate (width - s.length) '0' ++ s

/-- The fixed-width `w` decimal representation of `n` (characters, most
significant digit first, leading zeros included); the normal form that
`zfill (natStr i) w` takes for `0 < i < 10 ^ w`, used to reason about the
lexical order of segment names. -/
def padDec : Nat → Nat → List Char
  | 0, _ => []
  | w + 1, n => padDec w (n / 10) ++ [digChar (n % 10)]

/-- Lines 513-514: `sequence = str(segment + 1).zfill(digits)` and
`seg_name = "%s.%s" % (obj_name, sequence)`. `i` is the 1-based index. -/
def seg_name (obj_name : String) (digits i : Nat) : String :=
  obj_name ++ "." ++ String.mk (zfill (natStr i) digits)

/-- A body handed to `_store_object`: its byte length and its content digest
(`pyrax.utils.get_checksum`, an external digest primitive, is abstracted as the
string stored in `checksum`). -/
structure ContentSrc where
  len : Nat
  checksum : String
deriving DecidableEq, Repr

/-- One PUT issued by `_store_object` (lines 529-547): the object name, whether
a body was sent (`content is not None`), the body length, the `ETag` header if
one was set, and the `X-Object-Manifest` header if one was present. -/
structure StoreCall where
  objName : String
  hasBody : Bool
  bodyLen : Nat
  etagHeader : Option String
  manifestHeader : Option String
deriving DecidableEq, Repr

/-- Lines 529-547, `StorageObjectManager._store_object`: pops any caller
`ETag` header (discarding it), computes `etag = get_checksum(content)` when no
etag was given and a body exists (skipped in chunked mode), sets the `ETag`
header iff `etag` is truthy, and issues one PUT. `manifest` carries the
`X-Object-Manifest` header when the caller put one in `headers`. -/
def store_object (obj_name : String) (content : Option ContentSrc)
    (etag : Option String) (chunked : Bool) (manifest : Option String) :
    StoreCall :=
  let etag2 : Option String :=
    if chunked then etag
    else
      match etag, content with
      | none, some c => some c.checksum
      | e, _ => e
  { objName := obj_name
    hasBody := content.isSome
    bodyLen := (content.map ContentSrc.len).getD 0
    etagHeader := etag2
    manifestHeader := manifest }

/-- Lines 483-527, `StorageObjectManager._upload`, for a source of resolved
size `fsize` (the non-chunked path): if `fsize <= MAX_FILE_SIZE` a single
`_store_object` PUT is made; otherwise `num_segments_py fsize` segment PUTs
named `seg_name obj_name digits (i+1)` are made (each reading
`min MAX_FILE_SIZE remaining` bytes and carrying its own checksum as etag,
abstracted by `segChk`), followed by one manifest PUT at `obj_name` with no
content, header `X-Object-Manifest: "<container>/<obj_name>."`, and no etag
(lines 523-526 pop `ETag` and pass `content=None`). `chk` abstracts the digest
of the whole content for the single-PUT case. -/
def upload_calls (container obj_name : String) (fsize : Nat)
    (etag : Option String) (chk : String) (segChk : Nat → String) :
    List StoreCall :=
  if fsize ≤ MAX_FILE_SIZE then
    [store_object obj_name (some ⟨fsize, chk⟩) etag false none]
  else
    let n := num_segments_py fsize
    let digits := numDigits n
    ((List.range n).map fun seg =>
      store_object (seg_name obj_name digits (seg + 1))
        (some ⟨min MAX_FILE_SIZE (fsize - seg * MAX_FILE_SIZE), segChk (seg + 1)⟩)
        (some (segChk (seg + 1))) false none)
    ++ [store_object obj_name none none false
          (some (container ++ "/" ++ obj_name ++ "."))]

/-! ### Ranged chunked fetch (lines 550-607) -/

/-- Modelled from the spec: the remote store's ranged GET (the HTTP collaborator
`api.method_get` is not part of this repository). Per the spec's wire contract,
`Range: bytes=<s>-<e>` has an inclusive end: the response carries the object's
bytes from `s` through `min e (objLen - 1)`, and is empty when `s` is at or past
the end. The model returns the byte count of the response body. -/
def rangeGet (objLen s e : Nat) : Nat :=
  if s < objLen then min e (objLen - 1) - s + 1 else 0

/-- Lines 596-607, the loop of `StorageObjectManager._fetch_chunker`, embedded
with fuel (the fuel only bounds the iteration count; `fetch_chunker_chunks`
supplies enough and the lemmas show it never runs out). Each iteration requests
`Range: bytes=pos-endpos` with `endpos = min(obj_size, pos + chunk_size)`,
yields the body, then stops if the body was empty or the cumulative byte count
reached `max_size`; otherwise it advances `pos` to `endpos`. The returned list
holds the yielded body lengths in order. -/
def chunkLoopF : Nat → Nat → Nat → Nat → Nat → Nat → Option (List Nat)
  | 0, _, _, _, _, _ => none
  | fuel + 1, objLen, chunkSize, maxSize, pos, total =>
      let endpos := min objLen (pos + chunkSize)
      let body := rangeGet objLen pos endpos
      if body = 0 then some [body]
      else if maxSize ≤ total + body then some [body]
      else (chunkLoopF fuel objLen chunkSize maxSize endpos (total + body)).map
            fun l => body :: l

/-- Line 594, `size = size or obj_size`: Python truthiness means an absent
limit and a limit of `0` both fall back to `obj_size`. -/
def pyOrNat (a : Option Nat) (b : Nat) : Nat :=
  match a with
  | none => b
  | some v => if v = 0 then b else v

/-- Line 595: `max_size = min(size, obj_size)` after the `size or obj_size`
fallback. -/
def chunk_max_size (objLen : Nat) (size : Option Nat) : Nat :=
  min (pyOrNat size objLen) objLen

/-- Lines 588-607, `_fetch_chunker` run to completion from `pos = 0`,
`total_bytes = 0`: the sequence of yielded chunk lengths. -/
def fetch_chunker_chunks (objLen chunkSize : Nat) (size : Option Nat) :
    Option (List Nat) :=
  chunkLoopF (chunk_max_size objLen size + 1) objLen chunkSize
    (chunk_max_size objLen size) 0 0

/-- A resolved `StorageObject` as far as `fetch` consults it: only its `bytes`
attribute (total size) matters on the chunked path. -/
structure PyStorageObjectR where
  bytes : Nat
deriving DecidableEq, Repr

/-- The lazy generator value returned by `fetch` on the chunked path: the
arguments `_fetch_chunker` was closed over. -/
structure ChunkerGen where
  chunkSize : Nat
  size : Option Nat
  objSize : Nat
deriving DecidableEq, Repr

/-- Lines 574-580, `StorageObjectManager.fetch` with a truthy `chunk_size`:
when `obj` is a name (`Sum.inl`), `self.get(obj)` resolves the size by HEAD
(`headBytes` is what that HEAD reports) and `obj_size` is bound to it; when
`obj` is already a `StorageObject` (`Sum.inr`), the branch at lines 577-579 is
skipped and the local `obj_size` is never assigned, so line 580 raises
`UnboundLocalError`. -/
def fetch_chunked (headBytes : Nat) (obj : String ⊕ PyStorageObjectR)
    (chunkSize : Nat) (size : Option Nat) : Except PyErr ChunkerGen :=
  match obj with
  | Sum.inl _name => Except.ok ⟨chunkSize, size, headBytes⟩
  | Sum.inr _obj => Except.error PyErr.unboundLocal

/-! ### Folder-to-container sync planning (lines 2063-2111) -/

/-- What `_sync_folder_to_container` does with one local file. -/
inductive SyncOutcome where
  | upload
  | skip
  | err (e : PyErr)
deriving DecidableEq, Repr

/-- Lines 2086-2109, the per-file decision of
`StorageClient._sync_folder_to_container`. `remote` is the result of
`get_object`: `none` when `NoSuchObject` was raised, otherwise the pair of the
remote `etag` and `last_modified`. When the checksums differ (including the
remote-absent case, where `obj_etag` is `None`) and `ignore_timestamps` is
false, the code reaches line 2101 (`obj_time_str = EARLY_DATE_STR`) or line
2102 (`datetime.datetime.utcfromtimestamp(...)`); the module neither defines
`EARLY_DATE_STR` nor imports `datetime` (see the import block, lines 21-40), so
either reference raises `NameError` and no upload happens. -/
def sync_file_action (local_etag : String) (remote : Option (String × String))
    (ignore_timestamps : Bool) : SyncOutcome :=
  let obj_etag : Option String := remote.map Prod.fst
  if some local_etag ≠ obj_etag then
    if ¬ ignore_timestamps then SyncOutcome.err PyErr.nameError
    else SyncOutcome.upload
  else SyncOutcome.skip

/-! ### Create and its metadata snapshot (lines 203-240 and 415-480) -/

/-- The observable effect of a create call around the upload itself: how many
fresh metadata snapshots (`self.get(obj_name)`, one HEAD each) were fetched
afterwards, and whether a `StorageObject` was returned to the caller. -/
structure CreateEffect where
  snapshotHeads : Nat
  returnsObject : Bool
deriving DecidableEq, Repr

/-- Lines 478-480, the tail of `StorageObjectManager.create`: `if return_none:
return` (no snapshot, nothing returned), else `return self.get(obj_name)` (one
HEAD, object returned). -/
def manager_create_effect (return_none : Bool) : CreateEffect :=
  if return_none then ⟨0, false⟩ else ⟨1, true⟩

/-- Lines 203-240, `Container.create`: the method accepts `return_none` in its
signature but the delegation at lines 236-240 calls `object_manager.create`
without passing it, so the manager always runs with its default
`return_none=False`. -/
def container_create_effect (return_none : Bool) : CreateEffect :=
  manager_create_effect false

/-! ### Background folder upload walk (lines 2233-2280) -/

/-- A local file-system tree: named files with sizes, and named directories. -/
inductive FsEntry where
  | file (name : String) (size : Nat)
  | dir (name : String) (children : List FsEntry)

/-- Lines 2257-2273, the `os.path.walk` visitor
`FolderUploader.upload_files_in_folder`, for one directory (no cancellation in
flight): if the full `dirname` matches the ignore patterns the visitor returns
early and uploads nothing from this directory; otherwise every entry whose
bare name does not match is considered, directories are skipped (`continue`),
and each file is uploaded and produces one `_update_progress` of its size.
`m` is the ignore matcher: `utils.match_pattern(x, ignore)` is repository code
that is not under `src/`; modelled from the spec as a shell-style glob match of
a string against the pattern list, kept abstract here and instantiated with
concrete matchers in the theorems. -/
def visit_uploads (m : String → Bool) (dirname : String)
    (entries : List FsEntry) : List (String × Nat) :=
  if m dirname then []
  else entries.filterMap fun e =>
    match e with
    | FsEntry.file nm sz => if m nm then none else some (dirname ++ "/" ++ nm, sz)
    | FsEntry.dir nm _ => none

mutual

/-- Recursion of Python 2's `os.path.walk` (used at line 2280) into a single
entry: `walk` descends into every subdirectory found by `listdir`, regardless
of the visitor's return value or the ignore patterns. -/
def walkEntry (m : String → Bool) (parent : String) :
    FsEntry → List (String × Nat)
  | FsEntry.file _ _ => []
  | FsEntry.dir nm children => walkDir m (parent ++ "/" ++ nm) children

/-- Python 2's `os.path.walk dirname`: call the visitor on this directory's
entry list, then recurse into each subdirectory in order. The result is the
ordered list of `(full path, size)` uploads the `FolderUploader` job performs. -/
def walkDir (m : String → Bool) (dirname : String)
    (entries : List FsEntry) : List (String × Nat) :=
  visit_uploads m dirname entries ++ walkList m dirname entries

/-- Walk each entry of a directory in order. -/
def walkList (m : String → Bool) (dirname : String) :
    List FsEntry → List (String × Nat)
  | [] => []
  | e :: rest => walkEntry m dirname e ++ walkList m dirname rest

end

/-- The ignore matcher for the single pattern list `["tmp"]`: `fnmatch` with a
pattern containing no wildcard matches exactly the pattern itself. -/
def ignoreTmp (s : String) : Bool := s == "tmp"

/-- The sizes of the files the folder-upload job uploads, in upload order. -/
def upload_sizes (m : String → Bool) (root : String)
    (entries : List FsEntry) : List Nat :=
  (walkDir m root entries).map Prod.snd

mutual

/-- Modelled from the spec: `utils.folder_size(folder_path, ignore)` (line
2013) is repository code that is not under `src/`. The spec defines
`totalBytes` as "the size of the folder under the same ignore patterns", and
its ignore semantics (section 4.3, which the folder-upload job of section 4.4
is said to mirror) prunes: a component whose name matches a pattern is
skipped entirely, so an ignored directory contributes nothing (its whole
subtree included) and an ignored file is not counted. -/
def folder_size_entry (m : String → Bool) : FsEntry → Nat
  | FsEntry.file nm sz => if m nm then 0 else sz
  | FsEntry.dir nm children => if m nm then 0 else folder_size_list m children

/-- Total pruned size of a directory's entry list. -/
def folder_size_list (m : String → Bool) : List FsEntry → Nat
  | [] => 0
  | e :: rest => folder_size_entry m e + folder_size_list m rest

end

/-- The `total_bytes` the job records at submission (line 2013): the folder
size under the ignore patterns, per the spec's pruned semantics above. -/
def folder_size (m : String → Bool) (entries : List FsEntry) : Nat :=
  folder_size_list m entries

/-- Lines 2015-2017 and 2204-2206: `uploaded` starts at `0` and
`_update_progress` adds each uploaded file's size right after its upload, so
after `k` completed uploads it is the sum of the first `k` upload sizes
(cooperative cancellation stops the job at some such `k`). -/
def uploaded_after (m : String → Bool) (root : String)
    (entries : List FsEntry) (k : Nat) : Nat :=
  ((upload_sizes m root entries).take k).sum

/-! ### Temp URLs (lines 892-924) -/

/-- Python's `str.upper()` for the method string, applied characterwise. -/
def pyUpper (s : String) : String := String.mk (s.data.map Char.toUpper)

/-- Python's `str.strip()`: drop leading and trailing whitespace. -/
def pyStrip (s : String) : String :=
  String.mk
    ((s.data.dropWhile Char.isWhitespace).reverse.dropWhile
      Char.isWhitespace).reverse

/-- Line 911: `part.strip("/\\")` — drop leading and trailing `'/'` and `'\\'`
characters. -/
def stripSlashes (s : String) : String :=
  String.mk ((s.data.dropWhile fun c => c = '/' ∨ c = '\\').reverse.dropWhile
    (fun c => c = '/' ∨ c = '\\')).reverse

/-- Lowercase hexadecimal digit of `d < 16` (`'0'`-`'9'`, then `'a'`-`'f'`,
`'a'` having code point 97 = 87 + 10). -/
def hexDigit (d : Nat) : Char :=
  if d < 10 then Char.ofNat (48 + d) else Char.ofNat (87 + d)

/-- Two lowercase hex characters of one byte `b < 256`. -/
def byteHex (b : Nat) : List Char := [hexDigit (b / 16), hexDigit (b % 16)]

/-- Python's `hmac.new(key, body, sha1).hexdigest()` hex-encoding step applied
to a digest given as a byte list. -/
def hexdigest (bs : List Nat) : String := String.mk (bs.flatMap byteHex)

/-- The sixteen lowercase hexadecimal characters, `"0123456789abcdef"`. -/
def lowerHexChars : List Char := (List.range 16).map hexDigit

/-- Lines 910-912 of `get_temp_url`: the canonical path, `"/"` plus the
slash-stripped path parts joined by `"/"`. `vpath` is the part of
`management_url` from the `/vN/` regex match onward, the split of lines
906-909 being abstracted as the `baseUrl`/`vpath` pair. -/
def temp_url_pth (vpath cname oname : String) : String :=
  "/" ++ String.intercalate "/"
    [stripSlashes vpath, stripSlashes cname, stripSlashes oname]

/-- Lines 892-924, `ContainerManager.get_temp_url`. The method is validated
first (lines 902-905): anything whose upper-cased, stripped form is neither
`"GET"` nor `"PUT"` raises `InvalidTemporaryURLMethod` before any signing.
Otherwise `expires = now + seconds` (line 915, call-time epoch seconds plus
the TTL), the signature is the hex HMAC-SHA1 of `"<METHOD>\n<expires>\n<pth>"`
(lines 916-918; `hmacSha1` abstracts the `hmac`/`hashlib` primitive, which
returns a 20-byte digest), and the URL appends `temp_url_sig` and
`temp_url_expires` query parameters (lines 922-923). -/
def get_temp_url (hmacSha1 : String → String → List Nat)
    (baseUrl vpath cname oname : String) (seconds : Nat) (method : String)
    (key : String) (now : Nat) : Except PyErr String :=
  let mod_method := pyStrip (pyUpper method)
  if ¬ (mod_method = "GET" ∨ mod_method = "PUT") then
    Except.error PyErr.invalidMethod
  else
    let pth := temp_url_pth vpath cname oname
    let expires := now + seconds
    let hmac_body := mod_method ++ "\n" ++ toString expires ++ "\n" ++ pth
    let sig := hexdigest (hmacSha1 key hmac_body)
    Except.ok (baseUrl ++ pth ++ "?temp_url_sig=" ++ sig ++
      "&temp_url_expires=" ++ toString expires)

/-- A fixed stand-in for the HMAC-SHA1 primitive, used to instantiate the
abstract signer in witnesses: it has the digest shape (20 bytes, each < 256). -/
def constHmac : String → String → List Nat := fun _ _ => List.replicate 20 0

/-! ### Folder-upload status table (lines 2193-2229) -/

/-- One value of `folder_upload_status`: the `"continue"`, `"total_bytes"` and
`"uploaded"` keys set at lines 2015-2018 (`cont` embeds the `"continue"` key,
which is a reserved word in Lean). -/
structure UploadStatus where
  cont : Bool
  total_bytes : Nat
  uploaded : Nat
deriving DecidableEq, Repr

/-- The process-wide `folder_upload_status` dict, as an association list. -/
abbrev StatusTable := List (String × UploadStatus)

/-- Dict lookup `folder_upload_status[upload_key]`. -/
def lookupStatus : StatusTable → String → Option UploadStatus
  | [], _ => none
  | (k, st) :: rest, key => if k = key then some st else lookupStatus rest key

/-- Update the entry at `key` (used by the cancel path). -/
def setStatus : StatusTable → String → UploadStatus → StatusTable
  | [], _, _ => []
  | (k, st) :: rest, key, v =>
      if k = key then (k, v) :: rest else (k, st) :: setStatus rest key v

/-- Lines 2193-2201, the `_valid_upload_key` guard: an unknown key raises
`InvalidUploadID` (the lookup's `KeyError` is converted; nothing is inserted),
otherwise the wrapped body runs. Lines 2209-2212, `get_uploaded`: return the
`"uploaded"` counter. -/
def get_uploaded (tbl : StatusTable) (upload_key : String) : Except PyErr Nat :=
  match lookupStatus tbl upload_key with
  | none => Except.error PyErr.invalidUploadID
  | some st => Except.ok st.uploaded

/-- Lines 2215-2221, `cancel_folder_upload` behind the same guard: an unknown
key raises `InvalidUploadID` and the table is untouched; a known key has its
`"continue"` flag set to `False`. -/
def cancel_folder_upload (tbl : StatusTable) (upload_key : String) :
    Except PyErr StatusTable :=
  match lookupStatus tbl upload_key with
  | none => Except.error PyErr.invalidUploadID
  | some st => Except.ok (setStatus tbl upload_key { st with cont := false })

/-! ## Theorems -/

/-- Claim C1: the claimed segment count is the exact ceiling, but the code
computes it through `int(math.ceil(float(fsize) / MAX_FILE_SIZE))`. At
`fsize = 5368709119 * 2^22 + 1` (between `2^54` and `2^55`, where doubles are
4 apart) `float(fsize)` rounds down to exactly `5368709119 * 2^22`, the
division is then exactly `2^22`, and the code issues `4194304` segment PUTs
before the manifest PUT — one fewer than the exact ceiling `4194305` the
claim requires, so `4194304 * MAX_FILE_SIZE` bytes are read and the final
byte of the source is silently dropped. The small-size regime is as claimed:
`0 < fsize ≤ MAX_FILE_SIZE` performs exactly one object PUT with a body and
no manifest header (shown at `fsize = 3`, and at `fsize = MAX_FILE_SIZE + 1`
the segmented count is still the exact ceiling `2`). -/
theorem C1_float_segment_undercount :
    (5368709119 * 2 ^ 22 + 1 + MAX_FILE_SIZE - 1) / MAX_FILE_SIZE = 4194305 ∧
    num_segments_py (5368709119 * 2 ^ 22 + 1) = 4194304 ∧
    (∀ container obj_name etag chk segChk,
      ∃ segs mani,
        upload_calls container obj_name (5368709119 * 2 ^ 22 + 1) etag chk
            segChk = segs ++ [mani] ∧
        segs.length = 4194304 ∧
        mani.objName = obj_name ∧ mani.hasBody = false ∧ mani.bodyLen = 0 ∧
        mani.manifestHeader = some (container ++ "/" ++ obj_name ++ ".") ∧
        mani.etagHeader = none) ∧
    num_segments_py (MAX_FILE_SIZE + 1) = 2 ∧
    (∀ container obj_name etag chk segChk,
      ∃ c : StoreCall,
        upload_calls container obj_name 3 etag chk segChk = [c] ∧
        c.objName = obj_name ∧ c.hasBody = true ∧ c.manifestHeader = none) := by
  refine ⟨by decide, by decide, ?_, by decide, ?_⟩
  · intro container obj_name etag chk segChk
    rw [upload_calls, if_neg (by decide)]
    refine ⟨_, _, rfl, ?_, rfl, rfl, rfl, rfl, rfl⟩
    simp only [List.length_map, List.length_range]
    decide
  · intro container obj_name etag chk segChk
    exact ⟨store_object obj_name (some ⟨3, chk⟩) etag false none,
      by rw [upload_calls, if_pos (by decide)], rfl, rfl, rfl⟩

/-- One ranged GET of the chunk loop returns at most `chunkSize + 1` bytes:
the `Range` end is inclusive, so `bytes=pos-endpos` can cover `chunkSize + 1`
positions. -/
theorem rangeGet_le (objLen pos chunkSize : Nat) :
    rangeGet objLen pos (min objLen (pos + chunkSize)) ≤ chunkSize + 1 := by
  simp only [rangeGet]
  split <;> omega

/-- The chunk loop terminates: with fuel at least `maxSize + 1 - total` it
returns a value, because every continuing iteration grows `total` by at least
one byte. -/
theorem chunkLoopF_isSome (objLen chunkSize maxSize : Nat) :
    ∀ fuel pos total, total ≤ maxSize → maxSize + 1 ≤ total + fuel →
      ∃ l, chunkLoopF fuel objLen chunkSize maxSize pos total = some l := by
  intro fuel
  induction fuel with
  | zero => intro pos total h1 h2; omega
  | succ f ih =>
      intro pos total h1 h2
      simp only [chunkLoopF]
      by_cases hb : rangeGet objLen pos (min objLen (pos + chunkSize)) = 0
      · exact ⟨_, by rw [if_pos hb]⟩
      · by_cases hm :
          maxSize ≤ total + rangeGet objLen pos (min objLen (pos + chunkSize))
        · exact ⟨_, by rw [if_neg hb, if_pos hm]⟩
        · obtain ⟨l, hl⟩ := ih (min objLen (pos + chunkSize))
            (total + rangeGet objLen pos (min objLen (pos + chunkSize)))
            (by omega) (by omega)
          exact ⟨_, by rw [if_neg hb, if_neg hm, hl]; rfl⟩

/-- Cumulative bound of the chunk loop: starting strictly below `maxSize`, the
total bytes yielded never exceed `maxSize + chunkSize` (the final chunk is
yielded before the cumulative check and holds at most `chunkSize + 1` bytes). -/
theorem chunkLoopF_sum_le (objLen chunkSize maxSize : Nat) :
    ∀ fuel pos total l, total < maxSize →
      chunkLoopF fuel objLen chunkSize maxSize pos total = some l →
      total + l.sum ≤ maxSize + chunkSize := by
  intro fuel
  induction fuel with
  | zero => intro pos total l _ h; simp [chunkLoopF] at h
  | succ f ih =>
      intro pos total l ht h
      have hbody := rangeGet_le objLen pos chunkSize
      simp only [chunkLoopF] at h
      by_cases hb : rangeGet objLen pos (min objLen (pos + chunkSize)) = 0
      · rw [if_pos hb] at h
        cases h
        simp [hb]
        omega
      · rw [if_neg hb] at h
        by_cases hm :
            maxSize ≤ total + rangeGet objLen pos (min objLen (pos + chunkSize))
        · rw [if_pos hm] at h
          cases h
          simp only [List.sum_cons, List.sum_nil]
          omega
        · rw [if_neg hm] at h
          obtain ⟨l', hl', rfl⟩ := Option.map_eq_some'.mp h
          have := ih (min objLen (pos + chunkSize))
            (total + rangeGet objLen pos (min objLen (pos + chunkSize))) l'
            (by omega) hl'
          simp only [List.sum_cons]
          omega

/-- A zero-length chunk ends the loop: in any produced chunk list, a `0` can
only be the final element. -/
theorem chunkLoopF_zero_last (objLen chunkSize maxSize : Nat) :
    ∀ fuel pos total l,
      chunkLoopF fuel objLen chunkSize maxSize pos total = some l →
      ∀ pre x post, l = pre ++ x :: post → x = 0 → post = [] := by
  intro fuel
  induction fuel with
  | zero => intro pos total l h; simp [chunkLoopF] at h
  | succ f ih =>
      intro pos total l h pre x post hsplit hx
      simp only [chunkLoopF] at h
      by_cases hb : rangeGet objLen pos (min objLen (pos + chunkSize)) = 0
      · rw [if_pos hb] at h
        cases h
        rcases pre with _ | ⟨a, pre⟩
        · obtain ⟨h1, h2⟩ :
              rangeGet objLen pos (min objLen (pos + chunkSize)) = x ∧
                post = [] := by simpa using hsplit
          exact h2
        · simp at hsplit
      · rw [if_neg hb] at h
        by_cases hm :
            maxSize ≤ total + rangeGet objLen pos (min objLen (pos + chunkSize))
        · rw [if_pos hm] at h
          cases h
          rcases pre with _ | ⟨a, pre⟩
          · obtain ⟨h1, h2⟩ :
                rangeGet objLen pos (min objLen (pos + chunkSize)) = x ∧
                  post = [] := by simpa using hsplit
            exact h2
          · simp at hsplit
        · rw [if_neg hm] at h
          obtain ⟨l', hl', rfl⟩ := Option.map_eq_some'.mp h
          rcases pre with _ | ⟨a, pre⟩
          · obtain ⟨h1, h2⟩ :
                rangeGet objLen pos (min objLen (pos + chunkSize)) = x ∧
                  l' = post := by simpa using hsplit
            rw [hx] at h1
            exact absurd h1 hb
          · obtain ⟨h1, h2⟩ :
                rangeGet objLen pos (min objLen (pos + chunkSize)) = a ∧
                  l' = pre ++ x :: post := by simpa using hsplit
            exact ih _ _ _ hl' pre x post h2 hx

/-- A zero byte ceiling only happens for an empty object. -/
theorem chunk_max_size_eq_zero (objLen : Nat) (size : Option Nat)
    (h : chunk_max_size objLen size = 0) : objLen = 0 := by
  cases size with
  | none => simp only [chunk_max_size, pyOrNat] at h; simpa using h
  | some v =>
      simp only [chunk_max_size, pyOrNat] at h
      by_cases hv : v = 0
      · subst hv; simpa using h
      · rw [if_neg hv] at h
        rcases Nat.min_eq_zero_iff.mp h with h1 | h1
        · exact absurd h1 hv
        · exact h1

/-- Claim C2 counterexample: an object of 10 bytes fetched with chunk size 5
and size limit 10 yields chunks of 6 and 5 bytes — 11 cumulative bytes,
exceeding `min(sizeLimit, totalSize) = 10` (the inclusive `Range` end makes
consecutive chunks overlap by one byte, and the cumulative check only runs
after the yield). -/
theorem C2_cumulative_bytes_counterexample :
    fetch_chunker_chunks 10 5 (some 10) = some [6, 5] ∧
    min 10 10 < [6, 5].sum := by
  decide

/-- Claim C2 (amended): the chunked fetch always terminates, its cumulative
bytes never exceed `min(sizeLimit or totalSize, totalSize) + chunkSize`, and a
zero-length response is only ever the final yield. -/
theorem C2_chunk_bound_amended (objLen chunkSize : Nat) (size : Option Nat) :
    ∃ l, fetch_chunker_chunks objLen chunkSize size = some l ∧
      l.sum ≤ chunk_max_size objLen size + chunkSize ∧
      ∀ pre x post, l = pre ++ x :: post → x = 0 → post = [] := by
  obtain ⟨l, hl⟩ := chunkLoopF_isSome objLen chunkSize
    (chunk_max_size objLen size) (chunk_max_size objLen size + 1) 0 0
    (Nat.zero_le _) (by omega)
  refine ⟨l, hl, ?_, chunkLoopF_zero_last _ _ _ _ _ _ _ hl⟩
  by_cases h0 : chunk_max_size objLen size = 0
  · have hobj := chunk_max_size_eq_zero objLen size h0
    rw [h0] at hl
    subst hobj
    simp [chunkLoopF, rangeGet] at hl
    simp [← hl]
  · have := chunkLoopF_sum_le objLen chunkSize (chunk_max_size objLen size)
      (chunk_max_size objLen size + 1) 0 0 l (by omega) hl
    omega

/-- Witness for the amended C2 at a concrete input (the counterexample's own
input), obtained by applying the amended theorem. -/
theorem C2_chunk_bound_amended_witness :
    ∃ l, fetch_chunker_chunks 10 5 (some 10) = some l ∧
      l.sum ≤ chunk_max_size 10 (some 10) + 5 ∧
      ∀ pre x post, l = pre ++ x :: post → x = 0 → post = [] :=
  C2_chunk_bound_amended 10 5 (some 10)

/-- Claim C3: the sync pass's per-file decision. The equal-checksum case does
`Skip`, and with `ignore_timestamps=True` the differing case does `Upload`;
but with timestamps considered (the default), both the remote-absent case and
the differing-checksum case raise `NameError` instead of deciding
`Upload`/`Skip`, because the module defines neither `EARLY_DATE_STR` nor
`datetime` (lines 2099-2104 against the import block, lines 21-40). -/
theorem C3_sync_timestamp_branch_name_error :
    sync_file_action "d41d8cd9" (some ("abcdef01", "2015-06-01T12:00:00")) false
        = SyncOutcome.err PyErr.nameError ∧
    sync_file_action "d41d8cd9" none false = SyncOutcome.err PyErr.nameError ∧
    sync_file_action "d41d8cd9" (some ("d41d8cd9", "2015-06-01T12:00:00")) false
        = SyncOutcome.skip ∧
    sync_file_action "d41d8cd9" (some ("abcdef01", "2015-06-01T12:00:00")) true
        = SyncOutcome.upload := by
  decide

/-- Claim C4: chunked-mode fetch by name resolves the size via HEAD and
returns the generator with the byte ceiling `min(sizeLimit or totalSize,
totalSize)`; but a fetch of an already-resolved `StorageObject` raises
`UnboundLocalError`, because `obj_size` is assigned only inside the
not-a-`StorageObject` branch (lines 577-580). -/
theorem C4_resolved_object_unbound_local :
    fetch_chunked 10 (Sum.inr ⟨10⟩) 4 none = Except.error PyErr.unboundLocal ∧
    fetch_chunked 10 (Sum.inl "obj") 4 (some 7) =
      Except.ok { chunkSize := 4, size := some 7, objSize := 10 } ∧
    chunk_max_size 10 (some 7) = min 7 10 :=
  ⟨rfl, rfl, rfl⟩

/-- Claim C5: `StorageObjectManager.create` honors `return_none` (no snapshot
HEAD, nothing returned), but `Container.create` — the container-level create
interface — accepts `return_none=True` and still fetches and returns the
snapshot, because the delegation at lines 236-240 drops the flag. -/
theorem C5_container_create_drops_return_none :
    manager_create_effect true = { snapshotHeads := 0, returnsObject := false } ∧
    container_create_effect true = { snapshotHeads := 1, returnsObject := true } := by
  decide

/-- Claim C6: with ignore pattern list `["tmp"]`, a file inside the ignored
directory `tmp` is still uploaded by the folder-upload walk: `os.path.walk`
descends into `tmp` regardless of the visitor's early return, and inside it
the guard compares the full path `"root/tmp"` (which does not match the bare
pattern) rather than the component name. -/
theorem C6_ignored_dir_not_pruned :
    walkDir ignoreTmp "root" [FsEntry.dir "tmp" [FsEntry.file "f.txt" 5]]
      = [("root/tmp/f.txt", 5)] := by
  simp [walkDir, walkList, walkEntry, visit_uploads, ignoreTmp]

/-- A hex digit of a value below 16 is a lowercase hex character. -/
theorem hexDigit_mem_lowerHexChars : ∀ d, d < 16 → hexDigit d ∈ lowerHexChars := by
  decide

/-- Hex encoding doubles the length: two characters per byte. -/
theorem hexdigest_length (bs : List Nat) :
    (hexdigest bs).length = 2 * bs.length := by
  simp only [hexdigest, String.length_mk]
  induction bs with
  | nil => rfl
  | cons b bs ih =>
      rw [List.flatMap_cons, List.length_append, ih]
      simp only [byteHex, List.length_cons, List.length_nil, List.length]
      omega

/-- Every character of the hex encoding of a byte list is lowercase hex. -/
theorem hexdigest_chars (bs : List Nat) (hb : ∀ x ∈ bs, x < 256) :
    ∀ c ∈ (hexdigest bs).data, c ∈ lowerHexChars := by
  intro c hc
  have hc2 : c ∈ bs.flatMap byteHex := hc
  rw [List.mem_flatMap] at hc2
  obtain ⟨b, hbmem, hcb⟩ := hc2
  have h256 := hb b hbmem
  simp only [byteHex, List.mem_cons, List.not_mem_nil, or_false] at hcb
  rcases hcb with rfl | rfl
  · exact hexDigit_mem_lowerHexChars _ (by omega)
  · exact hexDigit_mem_lowerHexChars _ (Nat.mod_lt _ (by norm_num))

/-- Claim C7: a temp-URL request whose normalized method is neither GET nor
PUT fails with the invalid-method error before any signing; a GET request
returns a URL whose `temp_url_expires` query parameter equals the call-time
epoch seconds plus the TTL and whose `temp_url_sig` parameter is the
40-character lowercase-hex HMAC-SHA1 over `"<METHOD>\n<expires>\n<path>"`. -/
theorem C7_temp_url_method_and_signature
    (hmacSha1 : String → String → List Nat)
    (hlen : ∀ k b, (hmacSha1 k b).length = 20)
    (hbyte : ∀ k b x, x ∈ hmacSha1 k b → x < 256)
    (baseUrl vpath cname oname key method : String) (now seconds : Nat)
    (hbad : ¬ (pyStrip (pyUpper method) = "GET" ∨
               pyStrip (pyUpper method) = "PUT")) :
    get_temp_url hmacSha1 baseUrl vpath cname oname seconds method key now =
      Except.error PyErr.invalidMethod ∧
    ∃ sig : String,
      get_temp_url hmacSha1 baseUrl vpath cname oname seconds "GET" key now =
        Except.ok (baseUrl ++ temp_url_pth vpath cname oname ++
          "?temp_url_sig=" ++ sig ++ "&temp_url_expires=" ++
          toString (now + seconds)) ∧
      sig = hexdigest (hmacSha1 key ("GET" ++ "\n" ++ toString (now + seconds)
        ++ "\n" ++ temp_url_pth vpath cname oname)) ∧
      sig.length = 40 ∧
      ∀ c ∈ sig.data, c ∈ lowerHexChars := by
  have hGET : pyStrip (pyUpper "GET") = "GET" := by decide
  constructor
  · simp [get_temp_url, hbad]
  · refine ⟨_, ?_, rfl, ?_, ?_⟩
    · simp [get_temp_url, hGET]
    · rw [hexdigest_length, hlen]
    · exact hexdigest_chars _ fun x hx => hbyte _ _ x hx

/-- Witness for C7 with the concrete stand-in HMAC, the method `"DELETE"` of
the spec's Scenario E, and a TTL of 60 seconds. -/
theorem C7_temp_url_method_and_signature_witness :
    get_temp_url constHmac "http://swift" "v1/acct" "c" "o" 60 "DELETE" "key"
        1000 = Except.error PyErr.invalidMethod ∧
    ∃ sig : String,
      get_temp_url constHmac "http://swift" "v1/acct" "c" "o" 60 "GET" "key"
          1000 =
        Except.ok ("http://swift" ++ temp_url_pth "v1/acct" "c" "o" ++
          "?temp_url_sig=" ++ sig ++ "&temp_url_expires=" ++
          toString (1000 + 60)) ∧
      sig = hexdigest (constHmac "key" ("GET" ++ "\n" ++ toString (1000 + 60)
        ++ "\n" ++ temp_url_pth "v1/acct" "c" "o")) ∧
      sig.length = 40 ∧
      ∀ c ∈ sig.data, c ∈ lowerHexChars :=
  C7_temp_url_method_and_signature constHmac (fun _ _ => rfl)
    (fun _ _ x hx => by rw [List.eq_of_mem_replicate hx]; norm_num)
    "http://swift" "v1/acct" "c" "o" "key" "DELETE" 1000 60 (by decide)

/-- Claim C9: at submission the job records `total_bytes` as the folder size
under the ignore patterns (spec semantics: pruned), but the walk does not
prune ignored directories (see C6), so the `uploaded` counter can pass the
recorded total. With the ignore pattern list `["tmp"]` over a folder holding
`a.txt` (3 bytes) and `tmp/f.txt` (5 bytes), the recorded total is `3`; the
job uploads `a.txt` and then `tmp/f.txt`, each completed upload advancing
`uploaded` by exactly that file's size (0, then 3, then 8), and after the
second upload `uploaded = 8` exceeds `total_bytes = 3`, violating the claimed
invariant. -/
theorem C9_uploaded_exceeds_total_bytes :
    folder_size ignoreTmp
        [FsEntry.file "a.txt" 3, FsEntry.dir "tmp" [FsEntry.file "f.txt" 5]]
      = 3 ∧
    upload_sizes ignoreTmp "root"
        [FsEntry.file "a.txt" 3, FsEntry.dir "tmp" [FsEntry.file "f.txt" 5]]
      = [3, 5] ∧
    uploaded_after ignoreTmp "root"
        [FsEntry.file "a.txt" 3, FsEntry.dir "tmp" [FsEntry.file "f.txt" 5]] 0
      = 0 ∧
    uploaded_after ignoreTmp "root"
        [FsEntry.file "a.txt" 3, FsEntry.dir "tmp" [FsEntry.file "f.txt" 5]] 1
      = 3 ∧
    uploaded_after ignoreTmp "root"
        [FsEntry.file "a.txt" 3, FsEntry.dir "tmp" [FsEntry.file "f.txt" 5]] 2
      = 8 ∧
    ¬ uploaded_after ignoreTmp "root"
        [FsEntry.file "a.txt" 3, FsEntry.dir "tmp" [FsEntry.file "f.txt" 5]] 2
      ≤ folder_size ignoreTmp
          [FsEntry.file "a.txt" 3,
           FsEntry.dir "tmp" [FsEntry.file "f.txt" 5]] := by
  refine ⟨?_, ?_, ?_, ?_, ?_, ?_⟩ <;>
    simp [folder_size, folder_size_list, folder_size_entry, upload_sizes,
      uploaded_after, walkDir, walkList, walkEntry, visit_uploads, ignoreTmp]

/-- Claim C10: both public progress operations on a key that is not in the
status table raise `InvalidUploadID`; neither returns silently, and no entry
is created (the error is raised before any table write). -/
theorem C10_unknown_key_raises (tbl : StatusTable) (k : String)
    (h : lookupStatus tbl k = none) :
    get_uploaded tbl k = Except.error PyErr.invalidUploadID ∧
    cancel_folder_upload tbl k = Except.error PyErr.invalidUploadID := by
  constructor <;> simp [get_uploaded, cancel_folder_upload, h]

/-- Witness for C10 on the empty table and a concrete never-issued key. -/
theorem C10_unknown_key_raises_witness :
    get_uploaded [] "no-such-job" = Except.error PyErr.invalidUploadID ∧
    cancel_folder_upload [] "no-such-job" = Except.error PyErr.invalidUploadID :=
  C10_unknown_key_raises [] "no-such-job" rfl

/-! ### Lexical order of segment names (claim C8) -/

/-- The digit character of `0` is `'0'`. -/
theorem digChar_zero : digChar 0 = '0' := by decide

/-- The digit characters are strictly increasing on `0..9`. -/
theorem digChar_lt : ∀ d, d < 10 → ∀ e, e < 10 → d < e → digChar d < digChar e := by
  decide

/-- A fixed-width decimal representation has exactly its width as length. -/
theorem padDec_length (w : Nat) : ∀ n, (padDec w n).length = w := by
  induction w with
  | zero => intro n; rfl
  | succ w ih => intro n; simp [padDec, ih]

/-- The fixed-width representation of `0` is all zeros. -/
theorem padDec_zero_eq (w : Nat) : padDec w 0 = List.replicate w '0' := by
  induction w with
  | zero => rfl
  | succ w ih =>
      simp [padDec, ih, digChar_zero, List.replicate_succ']

/-- A single digit padded to width `w + 1`. -/
theorem padDec_small (w n : Nat) (h : n < 10) :
    padDec (w + 1) n = List.replicate w '0' ++ [digChar n] := by
  have h1 : n / 10 = 0 := Nat.div_eq_of_lt h
  have h2 : n % 10 = n := Nat.mod_eq_of_lt h
  simp [padDec, h1, h2, padDec_zero_eq]

/-- Zero-filling the bare decimal string to width `w` gives the fixed-width
representation, for positive values that fit in `w` digits. -/
theorem natStrAux_pad (f : Nat) : ∀ n w, n < f → 0 < n → n < 10 ^ w →
    List.replicate (w - (natStrAux f n).length) '0' ++ natStrAux f n
      = padDec w n := by
  induction f with
  | zero => intro n w h _ _; omega
  | succ f ih =>
      intro n w hnf hn hw
      by_cases h10 : n < 10
      · simp only [natStrAux, if_pos h10]
        cases w with
        | zero => simp at hw; omega
        | succ w =>
            rw [padDec_small w n h10]
            simp
      · simp only [natStrAux, if_neg h10]
        cases w with
        | zero => simp at hw; omega
        | succ w =>
            have hd1 : n / 10 < f := by
              have := Nat.div_lt_self (by omega : 0 < n) (by norm_num : 1 < 10)
              omega
            have hd2 : 0 < n / 10 := Nat.div_pos (by omega) (by norm_num)
            have hd3 : n / 10 < 10 ^ w := by
              rw [pow_succ] at hw
              exact Nat.div_lt_of_lt_mul (by omega)
            have hlen : (natStrAux f (n / 10) ++ [digChar (n % 10)]).length
                = (natStrAux f (n / 10)).length + 1 := by simp
            rw [hlen, padDec, ← ih (n / 10) w hd1 hd2 hd3,
              show w + 1 - ((natStrAux f (n / 10)).length + 1)
                  = w - (natStrAux f (n / 10)).length from by omega,
              List.append_assoc]

/-- A value is always below `10 ^ (number of its decimal digits)`. -/
theorem natStrAux_lt_pow (f : Nat) : ∀ n, n < f →
    n < 10 ^ (natStrAux f n).length := by
  induction f with
  | zero => intro n h; omega
  | succ f ih =>
      intro n hnf
      by_cases h10 : n < 10
      · simp only [natStrAux, if_pos h10, List.length_cons, List.length_nil]
        simpa using h10
      · simp only [natStrAux, if_neg h10, List.length_append,
          List.length_cons, List.length_nil]
        have hd1 : n / 10 < f := by
          have := Nat.div_lt_self (by omega : 0 < n) (by norm_num : 1 < 10)
          omega
        have hpow := ih (n / 10) hd1
        have hdm := Nat.div_add_mod n 10
        have hmod : n % 10 < 10 := Nat.mod_lt _ (by norm_num)
        have hmul : (n / 10 + 1) * 10 ≤ 10 ^ (natStrAux f (n / 10)).length * 10 :=
          Nat.mul_le_mul_right 10 (by omega)
        rw [pow_succ]
        omega

/-- The value fits in `numDigits` digits. -/
theorem natStr_lt_pow (n : Nat) : n < 10 ^ numDigits n := by
  simpa [numDigits, natStr] using natStrAux_lt_pow (n + 1) n (Nat.lt_succ_self n)

/-- `zfill (natStr n) w` is exactly the fixed-width representation when
`0 < n < 10 ^ w`. -/
theorem zfill_natStr_eq_padDec (n w : Nat) (hn : 0 < n) (hw : n < 10 ^ w) :
    zfill (natStr n) w = padDec w n := by
  simpa [zfill, natStr] using natStrAux_pad (n + 1) n w (Nat.lt_succ_self n) hn hw

/-- A lexical comparison decided inside equal-length lists survives appending
arbitrary suffixes. -/
theorem lex_append_of_lex {r : Char → Char → Prop} :
    ∀ {xs ys : List Char}, List.Lex r xs ys → xs.length = ys.length →
      ∀ as bs : List Char, List.Lex r (xs ++ as) (ys ++ bs) := by
  intro xs ys h
  induction h with
  | nil => intro hl; simp at hl
  | @rel a as1 b bs1 hab => intro _ as bs; exact List.Lex.rel hab
  | @cons a l1 l2 h ih =>
      intro hl as bs
      exact List.Lex.cons (ih (by simpa using hl) as bs)

/-- Lists equal up to a final differing element compare by that element. -/
theorem lex_append_last {r : Char → Char → Prop} {a b : Char} (hab : r a b) :
    ∀ (xs as bs : List Char), List.Lex r (xs ++ a :: as) (xs ++ b :: bs) := by
  intro xs
  induction xs with
  | nil => intro as bs; exact List.Lex.rel hab
  | cons c xs ih => intro as bs; exact List.Lex.cons (ih as bs)

/-- A common left part preserves lexical comparison. -/
theorem lex_append_left {r : Char → Char → Prop} (p : List Char)
    {xs ys : List Char} (h : List.Lex r xs ys) :
    List.Lex r (p ++ xs) (p ++ ys) := by
  induction p with
  | nil => exact h
  | cons c p ih => exact List.Lex.cons ih

/-- Fixed-width decimal representations compare lexically as their values. -/
theorem padDec_lex_mono : ∀ w n m, n < m → m < 10 ^ w →
    List.Lex (· < ·) (padDec w n) (padDec w m) := by
  intro w
  induction w with
  | zero => intro n m hnm hm; simp at hm; omega
  | succ w ih =>
      intro n m hnm hm
      simp only [padDec]
      rcases Nat.lt_trichotomy (n / 10) (m / 10) with h | h | h
      · have hm10 : m / 10 < 10 ^ w := by
          rw [pow_succ] at hm
          exact Nat.div_lt_of_lt_mul (by omega)
        exact lex_append_of_lex (ih (n / 10) (m / 10) h hm10)
          (by rw [padDec_length, padDec_length]) _ _
      · rw [h]
        refine lex_append_last ?_ _ _ _
        apply digChar_lt _ (Nat.mod_lt _ (by norm_num)) _
          (Nat.mod_lt _ (by norm_num))
        have h1 := Nat.div_add_mod n 10
        have h2 := Nat.div_add_mod m 10
        omega
      · exfalso
        have := Nat.div_le_div_right (c := 10) (Nat.le_of_lt hnm)
        omega

/-- The character list of a segment name splits off the common part. -/
theorem seg_name_toList (name : String) (digits k : Nat) :
    (seg_name name digits k).toList
      = (name.toList ++ ['.']) ++ zfill (natStr k) digits := by
  simp [seg_name, String.toList, String.data_append, List.append_assoc]

/-- Claim C8: for a segment count `1 ≤ n ≤ 10000` and the field width the
upload loop uses (`numDigits n`, the number of decimal digits of `n`), the
segment names `"<name>.<zero-padded i>"` compare lexically exactly as their
1-based sequence indices. -/
theorem C8_segment_names_lex_sorted (name : String) (n i j : Nat)
    (hn1 : 1 ≤ n) (hn2 : n ≤ 10000) (hi : 1 ≤ i) (hij : i < j) (hj : j ≤ n) :
    seg_name name (numDigits n) i < seg_name name (numDigits n) j := by
  have hnw : n < 10 ^ numDigits n := natStr_lt_pow n
  have hiw : i < 10 ^ numDigits n :=
    Nat.lt_of_lt_of_le hij (Nat.le_trans hj (Nat.le_of_lt hnw))
  have hjw : j < 10 ^ numDigits n := Nat.lt_of_le_of_lt hj hnw
  have ei : zfill (natStr i) (numDigits n) = padDec (numDigits n) i :=
    zfill_natStr_eq_padDec i (numDigits n) hi hiw
  have ej : zfill (natStr j) (numDigits n) = padDec (numDigits n) j :=
    zfill_natStr_eq_padDec j (numDigits n) (by omega) hjw
  have hlex : List.Lex (· < ·) (padDec (numDigits n) i)
      (padDec (numDigits n) j) := padDec_lex_mono (numDigits n) i j hij hjw
  refine String.lt_iff_toList_lt.mpr ?_
  show List.Lex (· < ·) (seg_name name (numDigits n) i).toList
    (seg_name name (numDigits n) j).toList
  rw [seg_name_toList, seg_name_toList, ei, ej]
  exact lex_append_left _ hlex

/-- Witness for C8 at `n = 10000`, `i = 1 < j = 10000`. -/
theorem C8_segment_names_lex_sorted_witness :
    seg_name "obj" (numDigits 10000) 1 < seg_name "obj" (numDigits 10000) 10000 :=
  C8_segment_names_lex_sorted "obj" 10000 1 10000 (by omega) (by omega)
    (by omega) (by omega) (by omega)

end PyraxOS
